import Mathlib

/-!
Shallow embedding of the tree-walking interpreter (Rust sources under
`src/`): the token and AST types (`token.rs`, `expr.rs`, `stmt.rs`), the
environment (`environment.rs`), runtime exceptions (`error.rs`), the
resolver (`resolver.rs`) and the evaluator (`interpreter.rs`,
`lox_function.rs`).

Modelling conventions:
* Rust `f64` numbers are modelled as `ℚ`; no claim below depends on
  IEEE-specific behaviour (overflow, NaN) and the source never produces
  `inf`/`nan` out of a division because of its explicit zero check.
* `HashMap<String, Literal>` is modelled as an association list with
  in-place overwrite on insert; only `insert`, `get` and `contains_key`
  are used by the source, and the list model agrees with the hash map on
  all three.
* The `literal : Option<Literal>` payload of `Token` is omitted: for
  every token stored inside an AST node (identifier and operator tokens)
  the source leaves it `None`; number/string payloads surface only as
  `Expr::Literal` nodes, which are modelled directly.
* Printing (`println!`) is modelled by appending the printed `Literal`
  to an output log instead of its `stringify` rendering; no claim
  depends on the rendered text.
* Mutation of `&mut self` receivers is modelled by explicit state
  passing: each operation returns its updated state alongside its Rust
  return value.
* Unbounded recursion in the evaluator (loops, calls) is modelled with a
  fuel parameter; `none` means the fuel ran out (or the source would
  panic, which no execution below reaches).
-/

/-- `TokenType` from `token.rs` (variants unused by the embedded
components are kept for completeness). -/
inductive TokenType where
  | LeftParen | RightParen | LeftBrace | RightBrace
  | Comma | Dot | Minus | Plus | Semicolon | Slash | Star | Percent
  | Bang | BangEqual | Equal | EqualEqual
  | Greater | GreaterEqual | Less | LessEqual
  | Identifier | StringTok | NumberTok
  | And | BreakTok | Class | Else | FalseTok | Fun | For | If | NilTok
  | Or | PrintTok | ReturnTok | Super | This | TrueTok | Var | While
  | Eof
deriving DecidableEq, Repr

/-- `Token` from `token.rs`, without the always-`None` literal payload
(see the file comment). -/
structure Token where
  token_type : TokenType
  lexeme : String
  line : Nat
deriving DecidableEq, Repr

/-- `Token::default()`: a `Nil`-typed token with empty lexeme, line 0. -/
def Token.default : Token := ⟨TokenType.NilTok, "", 0⟩

/-- `Token::from_string` (and `from_str`): a `Nil`-typed token carrying
only a lexeme. -/
def Token.from_string (lexeme : String) : Token :=
  ⟨TokenType.NilTok, lexeme, 0⟩

/-- The literal payloads the parser stores in `Expr::Literal` nodes
(`token.rs` `Literal`, restricted to the primitive variants the parser
can produce; function values never occur inside an AST). -/
inductive PrimLiteral where
  | Number (n : ℚ)
  | Str (s : String)
  | True
  | False
  | Nil
deriving DecidableEq, Repr

mutual
/-- `Expr` from `expr.rs`. -/
inductive Expr where
  | Literal (l : PrimLiteral)
  | Logical (left : Expr) (op : Token) (right : Expr)
  | Unary (op : Token) (right : Expr)
  | Assign (name : Token) (value : Expr)
  | Binary (left : Expr) (op : Token) (right : Expr)
  | Lambda (params : List Token) (body : List Stmt)
  | Call (callee : Expr) (paren : Token) (args : List Expr)
  | Grouping (e : Expr)
  | Variable (name : Token)
  | Empty

/-- `Stmt` from `stmt.rs`. -/
inductive Stmt where
  | Block (stmts : List Stmt)
  | Expression (e : Expr)
  | Function (name : Token) (params : List Token) (body : List Stmt)
  | Print (e : Expr)
  | Return (keyword : Token) (value : Option Expr)
  | If (cond : Expr) (thenB : Stmt) (elseB : Option Stmt)
  | While (cond : Expr) (body : Stmt)
  | Var (name : Token) (initializer : Option Expr)
  | Break (tok : Token)
end

mutual
/-- Structural equality on `Expr` (the `Eq`/`Hash` key discipline of the
source's `HashMap<Expr, u32>` side table). -/
def exprBEq : Expr → Expr → Bool
  | .Literal a, .Literal b => a == b
  | .Logical l1 o1 r1, .Logical l2 o2 r2 =>
      o1 == o2 && exprBEq l1 l2 && exprBEq r1 r2
  | .Unary o1 r1, .Unary o2 r2 => o1 == o2 && exprBEq r1 r2
  | .Assign n1 v1, .Assign n2 v2 => n1 == n2 && exprBEq v1 v2
  | .Binary l1 o1 r1, .Binary l2 o2 r2 =>
      o1 == o2 && exprBEq l1 l2 && exprBEq r1 r2
  | .Lambda p1 b1, .Lambda p2 b2 => p1 == p2 && stmtListBEq b1 b2
  | .Call c1 p1 a1, .Call c2 p2 a2 =>
      p1 == p2 && exprBEq c1 c2 && exprListBEq a1 a2
  | .Grouping e1, .Grouping e2 => exprBEq e1 e2
  | .Variable n1, .Variable n2 => n1 == n2
  | .Empty, .Empty => Bool.true
  | _, _ => Bool.false
termination_by structural e _ => e

/-- Elementwise `exprBEq` on lists. -/
def exprListBEq : List Expr → List Expr → Bool
  | [], [] => Bool.true
  | e1 :: r1, e2 :: r2 => exprBEq e1 e2 && exprListBEq r1 r2
  | _, _ => Bool.false
termination_by structural l _ => l

/-- Optional-expression equality. -/
def optExprBEq : Option Expr → Option Expr → Bool
  | none, none => Bool.true
  | some e1, some e2 => exprBEq e1 e2
  | _, _ => Bool.false
termination_by structural o _ => o

/-- Structural equality on `Stmt` (derived `PartialEq` in `stmt.rs`). -/
def stmtBEq : Stmt → Stmt → Bool
  | .Block s1, .Block s2 => stmtListBEq s1 s2
  | .Expression e1, .Expression e2 => exprBEq e1 e2
  | .Function n1 p1 b1, .Function n2 p2 b2 =>
      n1 == n2 && p1 == p2 && stmtListBEq b1 b2
  | .Print e1, .Print e2 => exprBEq e1 e2
  | .Return k1 v1, .Return k2 v2 => k1 == k2 && optExprBEq v1 v2
  | .If c1 t1 e1, .If c2 t2 e2 =>
      exprBEq c1 c2 && stmtBEq t1 t2 && optStmtBEq e1 e2
  | .While c1 b1, .While c2 b2 => exprBEq c1 c2 && stmtBEq b1 b2
  | .Var n1 i1, .Var n2 i2 => n1 == n2 && optExprBEq i1 i2
  | .Break t1, .Break t2 => t1 == t2
  | _, _ => Bool.false
termination_by structural s _ => s

/-- Elementwise `stmtBEq` on lists. -/
def stmtListBEq : List Stmt → List Stmt → Bool
  | [], [] => Bool.true
  | s1 :: r1, s2 :: r2 => stmtBEq s1 s2 && stmtListBEq r1 r2
  | _, _ => Bool.false
termination_by structural l _ => l

/-- Optional-statement equality. -/
def optStmtBEq : Option Stmt → Option Stmt → Bool
  | none, none => Bool.true
  | some s1, some s2 => stmtBEq s1 s2
  | _, _ => Bool.false
termination_by structural o _ => o
end

mutual
/-- Runtime values: `Literal` from `token.rs`. `NativeFunction` keeps
the name and arity of `native_function.rs`; its host callable is outside
the embedding. -/
inductive Literal where
  | Number (n : ℚ)
  | Str (s : String)
  | True
  | False
  | Nil
  | NativeFunction (name : String) (arity : Nat)
  | LoxFunction (f : LoxFunction)

/-- `LoxFunction` from `lox_function.rs`. -/
inductive LoxFunction where
  | mk (name : String) (declaration : Stmt) (closure : Env)

/-- `Environment` from `environment.rs`: a by-value scope frame with an
optional owned enclosing frame. -/
inductive Env where
  | mk (values : List (String × Literal)) (enclosing : Option Env)
end

/-- The `values` field of an `Environment`. -/
def Env.values : Env → List (String × Literal)
  | .mk v _ => v

/-- The `enclosing` field of an `Environment`. -/
def Env.enclosing : Env → Option Env
  | .mk _ e => e

/-- The `name` field of a `LoxFunction`. -/
def LoxFunction.name : LoxFunction → String
  | .mk n _ _ => n

/-- The `declaration` field of a `LoxFunction`. -/
def LoxFunction.declaration : LoxFunction → Stmt
  | .mk _ d _ => d

/-- The `closure` field of a `LoxFunction`. -/
def LoxFunction.closure : LoxFunction → Env
  | .mk _ _ c => c

/-- `RuntimeException` from `error.rs`, with the `RuntimeError` and
`Return` payload structs flattened into the constructors. -/
inductive RuntimeException where
  | Base (token : Token) (message : String)
  | Return (value : Option Literal)
  | Break

/-- `RuntimeException::base`. -/
def RuntimeException.base (token : Token) (message : String) : RuntimeException :=
  RuntimeException.Base token message

/-- `HashMap::insert` on the association-list model: overwrite the
binding in place if the key is present, else add it. -/
def valsInsert (k : String) (v : Literal) : List (String × Literal) → List (String × Literal)
  | [] => [(k, v)]
  | (k', v') :: rest =>
      if k' = k then (k, v) :: rest else (k', v') :: valsInsert k v rest

/-- `HashMap::get` on the association-list model. -/
def valsGet (k : String) : List (String × Literal) → Option Literal
  | [] => none
  | (k', v) :: rest => if k' = k then some v else valsGet k rest

/-- `HashMap::contains_key` on the association-list model. -/
def valsContains (k : String) (l : List (String × Literal)) : Bool :=
  (valsGet k l).isSome

/-- `Environment::new`. -/
def Env.new : Env := .mk [] none

/-- `Environment::with_enclosing`. -/
def Env.with_enclosing (enclosing : Env) : Env := .mk [] (some enclosing)

/-- `Environment::wrap`: append `enclosing` at the end of `env`'s parent
chain, returning the number of hops that were walked to reach it. -/
def Env.wrap : Env → Env → Nat → Env × Nat
  | .mk vals none, enclosing, depth => (.mk vals (some enclosing), depth)
  | .mk vals (some enc), enclosing, depth =>
      let (e, d) := Env.wrap enc enclosing (depth + 1)
      (.mk vals (some e), d)

/-- `Environment::unwrap`: walk `depth` hops down the parent chain and
drop everything below that frame. The source panics when the chain is
shorter than `depth`; no execution below reaches that case, and the
model then leaves the (already chainless) frame unchanged. -/
def Env.unwrap : Env → Nat → Env
  | .mk vals _, 0 => .mk vals none
  | .mk vals none, _ + 1 => .mk vals none
  | .mk vals (some enc), d + 1 => .mk vals (some (Env.unwrap enc d))

/-- `Environment::define`. -/
def Env.define (e : Env) (name : String) (value : Literal) : Env :=
  .mk (valsInsert name value e.values) e.enclosing

/-- `Environment::assign`: overwrite the innermost existing binding,
error if the name is bound nowhere on the chain. -/
def Env.assign : Env → Token → Literal → Except RuntimeException Env
  | .mk vals enc, name, value =>
    if valsContains name.lexeme vals then
      .ok (.mk (valsInsert name.lexeme value vals) enc)
    else
      match enc with
      | some enclosing =>
          match Env.assign enclosing name value with
          | .ok e' => .ok (.mk vals (some e'))
          | .error err => .error err
      | none =>
          .error (RuntimeException.base name
            ("Undefined variable " ++ name.lexeme ++ "."))

/-- `Environment::ancestor`: the frame `distance` hops up the chain.
In the source this returns a clone of that frame (and panics when the
chain is too short — unreachable below, modelled as stopping early). -/
def Env.ancestor : Env → Nat → Env
  | e, 0 => e
  | .mk _ (some enc), d + 1 => Env.ancestor enc d
  | .mk vals none, _ + 1 => .mk vals none

/-- `Environment::assign_at`. The source inserts into the clone
returned by `ancestor` and immediately drops it, so the receiving
environment is left unchanged and `Ok(())` is returned: the operation
is a no-op on the environment. -/
def Env.assign_at (e : Env) (_distance : Nat) (_name : Token)
    (_value : Literal) : Except RuntimeException Env :=
  .ok e

/-- `Environment::get`: innermost binding on the chain, else an
undefined-variable error. -/
def Env.get : Env → Token → Except RuntimeException Literal
  | .mk vals enc, name =>
    match valsGet name.lexeme vals with
    | some v => .ok v
    | none =>
      match enc with
      | some env => Env.get env name
      | none =>
          .error (RuntimeException.base name
            ("Undefined variable " ++ name.lexeme ++ "."))

/-- `Environment::get_at`: read `name` in the frame `distance` hops up. -/
def Env.get_at (e : Env) (distance : Nat) (name : String) :
    Except RuntimeException Literal :=
  match valsGet name (Env.ancestor e distance).values with
  | some v => .ok v
  | none =>
      .error (RuntimeException.base (Token.from_string name)
        ("Could not find " ++ name ++ " at expected depth."))

/-- `HashMap<Expr, u32>::insert` on the association-list model of the
interpreter's `locals` side table, keyed by structural `Expr` equality. -/
def localsInsert (e : Expr) (d : Nat) : List (Expr × Nat) → List (Expr × Nat)
  | [] => [(e, d)]
  | (k, d') :: rest =>
      if exprBEq k e then (e, d) :: rest else (k, d') :: localsInsert e d rest

/-- `HashMap<Expr, u32>::get` on the association-list model. -/
def localsGet (e : Expr) : List (Expr × Nat) → Option Nat
  | [] => none
  | (k, d) :: rest => if exprBEq k e then some d else localsGet e rest

/-- The interpreter's mutable state (`Interpreter` in `interpreter.rs`,
without the two error flags, which only drive process exit codes).
`output` models the `println!` log: each printed value is appended. -/
structure InterpState where
  environment : Env
  repl : Bool
  loop_count : Nat
  locals : List (Expr × Nat)
  output : List Literal

/-- `Interpreter::default()`: a fresh state whose global environment
holds the `clock` builtin. -/
def InterpState.default : InterpState :=
  { environment := Env.mk [("clock", Literal.NativeFunction "clock" 0)] none
    repl := false
    loop_count := 0
    locals := []
    output := [] }

/-- `Interpreter::new(&env)` as used by `LoxFunction::call`: a fresh
interpreter whose environment is a new frame enclosing `env`, with an
empty `locals` table; the shared stdout log is threaded through. -/
def InterpState.new (env : Env) (output : List Literal) : InterpState :=
  { environment := Env.with_enclosing env
    repl := false
    loop_count := 0
    locals := []
    output := output }

/-- `Interpreter::is_truthy`: everything but `Nil` and `False`. -/
def isTruthy : Literal → Bool
  | .Nil => Bool.false
  | .False => Bool.false
  | _ => Bool.true

/-- `Interpreter::is_equal`. Note the source has no `LoxFunction` arm,
so user functions compare unequal even to themselves. -/
def isEqual : Literal → Literal → Bool
  | .Nil, .Nil => Bool.true
  | .Nil, _ => Bool.false
  | .True, .True => Bool.true
  | .False, .False => Bool.true
  | .Number i, .Number j => i == j
  | .Str s1, .Str s2 => s1 == s2
  | .NativeFunction n1 a1, .NativeFunction n2 a2 => n1 == n2 && a1 == a2
  | _, _ => Bool.false

/-- `impl From<bool> for Literal`. -/
def Literal.fromBool (b : Bool) : Literal :=
  if b then Literal.True else Literal.False

/-- `impl ToString for Literal` (`token.rs`). The rendering of a Number
stands in for Rust's `f64::to_string`; no claim depends on the digits. -/
def litToString : Literal → String
  | .Nil => "nil"
  | .True => "true"
  | .False => "false"
  | .Str s => s
  | .Number n => toString n
  | .NativeFunction _ _ => "<native fn>"
  | .LoxFunction f => "<fn " ++ f.name ++ ">"

/-- Truncation toward zero on `ℚ`, mirroring how `f64 % f64` rounds. -/
def qtrunc (q : ℚ) : ℤ := q.num / (q.den : ℤ)

/-- Rust's `f64 % f64` (remainder truncated toward zero) on the `ℚ`
model. A zero divisor gives NaN in `f64`; the model then returns `a`
(`a / 0 = 0` on `ℚ`); no claim exercises `%`. -/
def fmodQ (a b : ℚ) : ℚ := a - b * (qtrunc (a / b) : ℚ)

/-- Injection of an AST literal payload into a runtime value
(`Expr::Literal(literal) => Ok(literal)` is the identity in the source;
the model splits the types, see the file comment). -/
def PrimLiteral.toLiteral : PrimLiteral → Literal
  | .Number n => .Number n
  | .Str s => .Str s
  | .True => .True
  | .False => .False
  | .Nil => .Nil

/-- `LoxFunction::arity` (`params.len() as u8`; the `u8` cast is the
`% 256` reduction). -/
def LoxFunction.arity (f : LoxFunction) : Nat :=
  match f.declaration with
  | .Function _ params _ => params.length % 256
  | _ => 0

/-- The `Expr::Binary` arm of `Interpreter::evaluate`, applied to the
already-evaluated operand results, with the source's match arms in
order. `none` models the source's `unimplemented!()` panic on operator
tokens the parser never produces. (The source's debug `println!` on a
`+` type error is not logged.) -/
def binaryOp (op : Token) (l r : Except RuntimeException Literal) :
    Option (Except RuntimeException Literal) :=
  match op.token_type, l, r with
  | .Minus, .ok (.Number a), .ok (.Number b) => some (.ok (.Number (a - b)))
  | .Minus, _, _ => some (.error (.base op "Operands must be numbers."))
  | .Slash, .ok (.Number a), .ok (.Number b) =>
      if b = 0 then some (.error (.base op "Cannot divide by zero"))
      else some (.ok (.Number (a / b)))
  | .Slash, _, _ => some (.error (.base op "Operands must be numbers."))
  | .Star, .ok (.Number a), .ok (.Number b) => some (.ok (.Number (a * b)))
  | .Star, _, _ => some (.error (.base op "Operands must be numbers."))
  | .Plus, .ok (.Number a), .ok (.Number b) => some (.ok (.Number (a + b)))
  | .Plus, .ok (.Str s1), .ok (.Str s2) => some (.ok (.Str (s1 ++ s2)))
  | .Plus, .ok (.Str s1), .ok lit => some (.ok (.Str (s1 ++ litToString lit)))
  | .Plus, .ok lit, .ok (.Str s2) => some (.ok (.Str (litToString lit ++ s2)))
  | .Plus, .ok _, .ok _ =>
      some (.error (.base op "Operands must be two numbers or two strings."))
  | .Percent, .ok (.Number a), .ok (.Number b) =>
      some (.ok (.Number (fmodQ a b)))
  | .Percent, _, _ => some (.error (.base op "Operands must be numbers"))
  | .Greater, .ok (.Number a), .ok (.Number b) =>
      some (.ok (Literal.fromBool (decide (a > b))))
  | .Greater, _, _ => some (.error (.base op "Operands must be numbers."))
  | .GreaterEqual, .ok (.Number a), .ok (.Number b) =>
      some (.ok (Literal.fromBool (decide (a ≥ b))))
  | .GreaterEqual, _, _ => some (.error (.base op "Operands must be numbers."))
  | .Less, .ok (.Number a), .ok (.Number b) =>
      some (.ok (Literal.fromBool (decide (a < b))))
  | .Less, _, _ => some (.error (.base op "Operands must be numbers."))
  | .LessEqual, .ok (.Number a), .ok (.Number b) =>
      some (.ok (Literal.fromBool (decide (a ≤ b))))
  | .LessEqual, _, _ => some (.error (.base op "Operands must be numbers."))
  | .BangEqual, .ok l1, .ok l2 =>
      some (.ok (Literal.fromBool (!(isEqual l1 l2))))
  | .EqualEqual, .ok l1, .ok l2 =>
      some (.ok (Literal.fromBool (isEqual l1 l2)))
  | _, .error err, _ => some (.error err)
  | _, _, .error err => some (.error err)
  | _, _, _ => none

/-- The parameter-binding loop at the top of `LoxFunction::call`: define
each parameter to the corresponding argument in the fresh call frame
(the caller has already checked the arity, so the lists have equal
length there). -/
def defineParams (s : InterpState) (params : List Token)
    (args : List Literal) : InterpState :=
  (params.zip args).foldl
    (fun st pv => { st with environment := st.environment.define pv.1.lexeme pv.2 })
    s

mutual
/-- `Interpreter::execute` (`interpreter.rs`). The state is threaded
explicitly; the `Except` value is the Rust `InterpreterResult<()>`. -/
def execute : Nat → InterpState → Stmt → Option (InterpState × Except RuntimeException Unit)
  | 0, _, _ => none
  | fuel + 1, s, stmt =>
    match stmt with
    | .Expression expr =>
      match expr with
      | .Assign _ _ =>
        match evaluate fuel s expr with
        | none => none
        | some (s1, .error e) => some (s1, .error e)
        | some (s1, .ok _) => some (s1, .ok ())
      | _ =>
        match evaluate fuel s expr with
        | none => none
        | some (s1, .error e) => some (s1, .error e)
        | some (s1, .ok v) =>
            if s1.repl then some ({ s1 with output := s1.output ++ [v] }, .ok ())
            else some (s1, .ok ())
    | .Print expr =>
      match evaluate fuel s expr with
      | none => none
      | some (s1, .error e) => some (s1, .error e)
      | some (s1, .ok v) => some ({ s1 with output := s1.output ++ [v] }, .ok ())
    | .Var token initializer =>
      match initializer with
      | none =>
          some (s, .error (.base token "Must assign value to new variable."))
      | some e =>
        match evaluate fuel s e with
        | none => none
        | some (s1, .error err) => some (s1, .error err)
        | some (s1, .ok v) =>
            some ({ s1 with environment := s1.environment.define token.lexeme v },
                  .ok ())
    | .While condition body =>
      match evaluate fuel s condition with
      | none => none
      | some (s0, .error e) => some (s0, .error e)
      | some (s0, .ok v) =>
        let s1 := { s0 with loop_count := s0.loop_count + 1 }
        match whileLoop fuel s1 v condition body with
        | none => none
        | some (s2, .error e) => some (s2, .error e)
        | some (s2, .ok _) =>
            some ({ s2 with loop_count := s2.loop_count - 1 }, .ok ())
    | .Block stmts => evaluateBlock fuel s stmts
    | .If condition thenB elseB =>
      match evaluate fuel s condition with
      | none => none
      | some (s1, .error e) => some (s1, .error e)
      | some (s1, .ok v) =>
        if isTruthy v then
          match execute fuel s1 thenB with
          | none => none
          | some (s2, .error e) => some (s2, .error e)
          | some (s2, .ok _) => some (s2, .ok ())
        else
          match elseB with
          | some eb =>
            match execute fuel s1 eb with
            | none => none
            | some (s2, .error e) => some (s2, .error e)
            | some (s2, .ok _) => some (s2, .ok ())
          | none => some (s1, .ok ())
    | .Break token =>
      if s.loop_count > 0 then some (s, .error .Break)
      else some (s, .error (.base token "Expected to be within a loop."))
    | .Function name params body =>
      let fnStmt := Stmt.Function name params body
      let function := Literal.LoxFunction (LoxFunction.mk name.lexeme fnStmt s.environment)
      some ({ s with environment := s.environment.define name.lexeme function },
            .ok ())
    | .Return _keyword value =>
      match value with
      | some e =>
        match evaluate fuel s e with
        | none => none
        | some (s1, .error err) => some (s1, .error err)
        | some (s1, .ok v) => some (s1, .error (.Return (some v)))
      | none => some (s, .error (.Return none))

/-- The `while` loop body of the `Stmt::While` arm: run the body, catch
`Break`, re-evaluate the condition, repeat. An `ok` result means the
loop was left normally or via `Break` (the caller then decrements the
nesting counter); an `error` is the source's early `return Err(err)`,
which skips the decrement. -/
def whileLoop : Nat → InterpState → Literal → Expr → Stmt →
    Option (InterpState × Except RuntimeException Unit)
  | 0, _, _, _, _ => none
  | fuel + 1, s, v, condition, body =>
    if isTruthy v then
      match execute fuel s body with
      | none => none
      | some (s1, .error .Break) => some (s1, .ok ())
      | some (s1, .error e) => some (s1, .error e)
      | some (s1, .ok _) =>
        match evaluate fuel s1 condition with
        | none => none
        | some (s2, .error e) => some (s2, .error e)
        | some (s2, .ok v') => whileLoop fuel s2 v' condition body
    else some (s, .ok ())

/-- The statement loop shared by `Interpreter::interpret` and
`Interpreter::evaluate_block`: execute in order, stopping at the first
error (the state at that point is kept, as in the source). -/
def executeSeq : Nat → InterpState → List Stmt →
    Option (InterpState × Except RuntimeException Unit)
  | 0, _, _ => none
  | _ + 1, s, [] => some (s, .ok ())
  | fuel + 1, s, stmt :: rest =>
    match execute fuel s stmt with
    | none => none
    | some (s1, .error e) => some (s1, .error e)
    | some (s1, .ok _) => executeSeq fuel s1 rest

/-- `Interpreter::evaluate_block`: push a fresh frame, run the
statements, and — only when they all succeeded — pop back to the
enclosing frame. An error (`Base`, `Return` or `Break`) propagates via
`?` before the pop, leaving the pushed frame in place. -/
def evaluateBlock : Nat → InterpState → List Stmt →
    Option (InterpState × Except RuntimeException Unit)
  | 0, _, _ => none
  | fuel + 1, s, stmts =>
    let s1 := { s with environment := Env.with_enclosing s.environment }
    match executeSeq fuel s1 stmts with
    | none => none
    | some (s2, .error e) => some (s2, .error e)
    | some (s2, .ok _) =>
      match s2.environment.enclosing with
      | some enc => some ({ s2 with environment := enc }, .ok ())
      | none => some (s2, .ok ())

/-- `Interpreter::evaluate` (`interpreter.rs`). -/
def evaluate : Nat → InterpState → Expr → Option (InterpState × Except RuntimeException Literal)
  | 0, _, _ => none
  | fuel + 1, s, expr =>
    match expr with
    | .Empty => some (s, .ok .Nil)
    | .Literal l => some (s, .ok l.toLiteral)
    | .Grouping e => evaluate fuel s e
    | .Unary op right =>
      match evaluate fuel s right with
      | none => none
      | some (s1, r) =>
        match op.token_type, r with
        | .Minus, .ok (.Number n) => some (s1, .ok (.Number (-n)))
        | .Minus, _ => some (s1, .error (.base op "Operand must be a number."))
        | .Bang, .ok v =>
            some (s1, .ok (if !(isTruthy v) then Literal.True else Literal.False))
        | _, .error err => some (s1, .error err)
        | _, _ => none
    | .Assign name value =>
      let key := Expr.Assign name value
      match evaluate fuel s value with
      | none => none
      | some (s1, .error e) => some (s1, .error e)
      | some (s1, .ok v) =>
        match localsGet key s1.locals with
        | some d =>
          match s1.environment.assign_at d name v with
          | .ok env' => some ({ s1 with environment := env' }, .ok v)
          | .error e => some (s1, .error e)
        | none =>
          match s1.environment.assign name v with
          | .ok env' => some ({ s1 with environment := env' }, .ok v)
          | .error e => some (s1, .error e)
    | .Variable name =>
      match localsGet (Expr.Variable name) s.locals with
      | some d => some (s, s.environment.get_at d name.lexeme)
      | none => some (s, s.environment.get name)
    | .Logical left op right =>
      match evaluate fuel s left with
      | none => none
      | some (s1, .error e) => some (s1, .error e)
      | some (s1, .ok l) =>
        if op.token_type = TokenType.Or && isTruthy l then some (s1, .ok l)
        else if !(isTruthy l) then some (s1, .ok l)
        else evaluate fuel s1 right
    | .Lambda args body =>
      let fnStmt := Stmt.Function (Token.from_string "") args body
      some (s, .ok (.LoxFunction (LoxFunction.mk "" fnStmt s.environment)))
    | .Call callee paren args =>
      match evaluate fuel s callee with
      | none => none
      | some (s1, .error e) => some (s1, .error e)
      | some (s1, .ok callee2) =>
        match evalArgs fuel s1 args with
        | none => none
        | some (s2, .error e) => some (s2, .error e)
        | some (s2, .ok argv) =>
          match callee2 with
          | .LoxFunction lf =>
            if argv.length ≠ lf.arity then
              some (s2, .error (.base paren
                ("Expected " ++ toString lf.arity ++ " arguments but got "
                  ++ toString argv.length ++ ".")))
            else
              match callFunction fuel lf s2 argv with
              | none => none
              | some (lf', out', result) =>
                let s3 := { s2 with output := out' }
                match callee with
                | .Variable token =>
                  match s3.environment.assign token (.LoxFunction lf') with
                  | .ok env' => some ({ s3 with environment := env' }, result)
                  | .error e => some (s3, .error e)
                | _ => some (s3, result)
          | .NativeFunction _name arity =>
            if argv.length ≠ arity then
              some (s2, .error (.base paren
                ("Expected " ++ toString arity ++ " arguments but got "
                  ++ toString argv.length ++ ".")))
            else none
          | _ =>
            some (s2, .error (.base paren "Can only call functions and classes."))
    | .Binary left op right =>
      match evaluate fuel s left with
      | none => none
      | some (s1, leftR) =>
        match evaluate fuel s1 right with
        | none => none
        | some (s2, rightR) =>
          match binaryOp op leftR rightR with
          | some res => some (s2, res)
          | none => none

/-- The argument loop of the `Expr::Call` arm: evaluate left to right,
propagating the first error. -/
def evalArgs : Nat → InterpState → List Expr →
    Option (InterpState × Except RuntimeException (List Literal))
  | 0, _, _ => none
  | _ + 1, s, [] => some (s, .ok [])
  | fuel + 1, s, e :: rest =>
    match evaluate fuel s e with
    | none => none
    | some (s1, .error err) => some (s1, .error err)
    | some (s1, .ok v) =>
      match evalArgs fuel s1 rest with
      | none => none
      | some (s2, .error err) => some (s2, .error err)
      | some (s2, .ok vs) => some (s2, .ok (v :: vs))

/-- `LoxFunction::call` (`lox_function.rs`). The outer interpreter is
passed immutably in the source, so only the shared stdout log and the
function value itself come back: the returned triple is the updated
`LoxFunction` (closure written back via `Environment::unwrap`), the new
output log, and the Rust return value (with a `Return` signal already
converted to the returned literal). -/
def callFunction : Nat → LoxFunction → InterpState → List Literal →
    Option (LoxFunction × List Literal × Except RuntimeException Literal)
  | 0, _, _, _ => none
  | fuel + 1, lf, s, args =>
    let (env, depth) := Env.wrap lf.closure s.environment 0
    let s2 := InterpState.new env s.output
    match lf.declaration with
    | .Function _name params body =>
      let s2 := defineParams s2 params args
      match evaluateBlock fuel s2 body with
      | none => none
      | some (s3, result) =>
        let lf' := LoxFunction.mk lf.name lf.declaration
          (Env.unwrap s3.environment depth)
        some (lf', s3.output,
          match result with
          | .error (.Return (some v)) => .ok v
          | .error (.Return none) => .ok Literal.Nil
          | .error e => .error e
          | .ok _ => .ok Literal.Nil)
    | _ =>
      some (lf, s.output,
        .error (.base Token.default "Invalid function declaration."))
end

/-- `Interpreter::interpret`: the top-level statement loop. -/
def interpret (fuel : Nat) (s : InterpState) (stmts : List Stmt) :
    Option (InterpState × Except RuntimeException Unit) :=
  executeSeq fuel s stmts

/-- `FunctionType` from `resolver.rs`. -/
inductive FunctionType where
  | None
  | Function
deriving DecidableEq

/-- Scope lookup (`HashMap<String, bool>::get`) on the association-list
model. -/
def scopeGet (name : String) : List (String × Bool) → Option Bool
  | [] => none
  | (k, b) :: rest => if k = name then some b else scopeGet name rest

/-- `HashMap<String, bool>::insert` with in-place overwrite. -/
def scopeInsert (name : String) (b : Bool) : List (String × Bool) → List (String × Bool)
  | [] => [(name, b)]
  | (k, b') :: rest =>
      if k = name then (name, b) :: rest else (k, b') :: scopeInsert name b rest

/-- `HashMap<String, bool>::contains_key`. -/
def scopeContains (name : String) (l : List (String × Bool)) : Bool :=
  (scopeGet name l).isSome

/-- The `Resolver` state (`resolver.rs`). The head of `scopes` is the
top of the source's `Vec` stack, i.e. the innermost scope. `locals` is
the side table built through `interpreter.resolve`; `had_error` stands
for `interpreter.had_error`, which `log_error` sets (the diagnostic text
itself is not modelled). -/
structure ResolverState where
  scopes : List (List (String × Bool))
  locals : List (Expr × Nat)
  current_function : FunctionType
  returned : Bool
  had_error : Bool

/-- `Resolver::new` on a fresh interpreter (as `run()` constructs it:
the cloned interpreter's `locals` is empty at that point). -/
def ResolverState.new : ResolverState :=
  { scopes := []
    locals := []
    current_function := FunctionType.None
    returned := Bool.false
    had_error := Bool.false }

/-- `Resolver::begin_scope`. -/
def ResolverState.begin_scope (st : ResolverState) : ResolverState :=
  { st with scopes := [] :: st.scopes }

/-- `Resolver::end_scope`: clear the `returned` flag and pop. -/
def ResolverState.end_scope (st : ResolverState) : ResolverState :=
  { st with returned := Bool.false, scopes := st.scopes.tail }

/-- `Resolver::declare`. On a duplicate name the source logs an error
and returns early — after having popped the scope without pushing it
back, so the top scope is dropped in that case (kept as in the source;
no program below declares duplicates). -/
def ResolverState.declare (st : ResolverState) (name : Token) : ResolverState :=
  match st.scopes with
  | [] => st
  | scope :: rest =>
    if scopeContains name.lexeme scope then
      { st with scopes := rest, had_error := Bool.true }
    else
      { st with scopes := scopeInsert name.lexeme Bool.false scope :: rest }

/-- `Resolver::define`. -/
def ResolverState.define (st : ResolverState) (name : Token) : ResolverState :=
  match st.scopes with
  | [] => st
  | scope :: rest =>
      { st with scopes := scopeInsert name.lexeme Bool.true scope :: rest }

/-- The loop body of `Resolver::resolve_local`: the source iterates
`i = scopes.len()-1` down to `0` — i.e. from the innermost scope
outward, which is front to back here — and, at every scope containing
the name, records `(expr ↦ scopes.len()-1-i)` (the distance `d` of that
scope from the innermost one). There is no break, so a match in an
outer scope overwrites the entry recorded for an inner one. -/
def resolveLocalLoop (locals : List (Expr × Nat)) (expr : Expr) (name : String) :
    List (List (String × Bool)) → Nat → List (Expr × Nat)
  | [], _ => locals
  | scope :: rest, d =>
    let locals' := if scopeContains name scope then localsInsert expr d locals else locals
    resolveLocalLoop locals' expr name rest (d + 1)

/-- `Resolver::resolve_local`: nothing is recorded when the scope stack
is empty; otherwise run the loop over all scopes. -/
def ResolverState.resolve_local (st : ResolverState) (expr : Expr) (name : Token) :
    ResolverState :=
  match st.scopes with
  | [] => st
  | _ :: _ =>
      { st with locals := resolveLocalLoop st.locals expr name.lexeme st.scopes 0 }

mutual
/-- `Resolve<Stmt>::resolve` for the resolver. In the `Function` case
`Resolver::resolve_function` is inlined at its only call site (with
`function_type = FunctionType::Function`): save `current_function`, set
it, push a scope, declare-and-define the parameters, resolve the body,
pop the scope, restore `current_function`. -/
def resolveStmt : ResolverState → Stmt → ResolverState
  | st, .Block stmts => (resolveStmts st.begin_scope stmts).end_scope
  | st, .Var name initializer =>
    if st.returned then { st with had_error := Bool.true }
    else
      let st := st.declare name
      let st := match initializer with
        | some e => resolveExpr st e
        | none => st
      st.define name
  | st, .Function name params body =>
    let st := (st.declare name).define name
    let enclosing_function := st.current_function
    let st := { st with current_function := FunctionType.Function }
    let st := st.begin_scope
    let st := params.foldl (fun st p => (st.declare p).define p) st
    let st := resolveStmts st body
    let st := st.end_scope
    { st with current_function := enclosing_function }
  | st, .Expression e => resolveExpr st e
  | st, .If cond thenB elseB =>
    let st := resolveExpr st cond
    let st := resolveStmt st thenB
    let st := match elseB with
      | some eb => resolveStmt st eb
      | none => st
    { st with returned := Bool.false }
  | st, .Print e => resolveExpr st e
  | st, .Return _keyword value =>
    if st.current_function = FunctionType.None then
      { st with had_error := Bool.true }
    else
      let st := match value with
        | some v => resolveExpr st v
        | none => st
      { st with returned := Bool.true }
  | st, .While cond body => resolveStmt (resolveExpr st cond) body
  | st, .Break _ => st
termination_by structural _ s => s

/-- `Resolve<Vec<Stmt>>::resolve`. -/
def resolveStmts : ResolverState → List Stmt → ResolverState
  | st, [] => st
  | st, stmt :: rest => resolveStmts (resolveStmt st stmt) rest
termination_by structural _ l => l

/-- `Resolve<Expr>::resolve`. `Lambda` and `Empty` fall through the
source's final `_ => ()` arm, so lambda bodies are never resolved. -/
def resolveExpr : ResolverState → Expr → ResolverState
  | st, .Variable name =>
    if st.returned then { st with had_error := Bool.true }
    else
      let st := match st.scopes with
        | scope :: _ =>
          match scopeGet name.lexeme scope with
          | some Bool.false => { st with had_error := Bool.true }
          | _ => st
        | [] => st
      st.resolve_local (Expr.Variable name) name
  | st, .Assign name value =>
      (resolveExpr st value).resolve_local (Expr.Assign name value) name
  | st, .Binary left _ right => resolveExpr (resolveExpr st left) right
  | st, .Call callee _ args => resolveExprs (resolveExpr st callee) args
  | st, .Grouping e => resolveExpr st e
  | st, .Literal _ => st
  | st, .Logical left _ right => resolveExpr (resolveExpr st left) right
  | st, .Unary _ right => resolveExpr st right
  | st, _ => st
termination_by structural _ e => e

/-- The argument loop of the resolver's `Expr::Call` arm. -/
def resolveExprs : ResolverState → List Expr → ResolverState
  | st, [] => st
  | st, e :: rest => resolveExprs (resolveExpr st e) rest
termination_by structural _ l => l
end

/-- The core of `Interpreter::run` after parsing: resolve the
statements, stop if the resolver reported an error, else interpret.
NOTE (as in the source): `run()` hands a clone of the interpreter to the
resolver and never copies the resolver's `locals` table back, so
interpretation proceeds with the interpreter's own — still empty —
`locals`. -/
def runProgram (fuel : Nat) (stmts : List Stmt) :
    Option (InterpState × Except RuntimeException Unit) :=
  let r := resolveStmts ResolverState.new stmts
  if r.had_error then none
  else interpret fuel InterpState.default stmts

/-- Whether a runtime value is a `Number`. -/
def Literal.isNumber : Literal → Bool
  | .Number _ => Bool.true
  | _ => Bool.false

/-- Observable result of a run: the print log and whether the run
finished without a runtime error. -/
def runObs (fuel : Nat) (stmts : List Stmt) : Option (List Literal × Bool) :=
  (runProgram fuel stmts).map
    (fun p => (p.1.output, match p.2 with | .ok _ => Bool.true | _ => Bool.false))

/-- Identifier token `x` (line 1). -/
def xTok : Token := ⟨TokenType.Identifier, "x", 1⟩

/-- Identifier token `f` (line 2). -/
def fTok : Token := ⟨TokenType.Identifier, "f", 2⟩

/-- `return` keyword token. -/
def returnTok : Token := ⟨TokenType.ReturnTok, "return", 2⟩

/-- Closing-paren token of a call. -/
def parenTok : Token := ⟨TokenType.RightParen, ")", 4⟩

/-- `var x = 1; fun f() { return x; } x = 2; print f();` — the classic
closure-capture program: `f` closes over `x`, `x` is reassigned after
`f` is created, then `f` is called. -/
def c1Prog : List Stmt :=
  [ .Var xTok (some (.Literal (.Number 1))),
    .Function fTok [] [ .Return returnTok (some (.Variable xTok)) ],
    .Expression (.Assign xTok (.Literal (.Number 2))),
    .Print (.Call (.Variable fTok) parenTok []) ]

/-- Identifier token `y`. -/
def yTok : Token := ⟨TokenType.Identifier, "y", 1⟩

/-- `break` keyword token. -/
def breakTok : Token := ⟨TokenType.BreakTok, "break", 1⟩

/-- The block `{ var y = 10; break; }`. -/
def c2Block : List Stmt :=
  [ .Var yTok (some (.Literal (.Number 10))), .Break breakTok ]

/-- A default interpreter state already inside one loop
(`loop_count = 1`), as when a loop body block is executed. -/
def c2State : InterpState := { InterpState.default with loop_count := 1 }

/-- `while (true) { var y = 10; break; } print y;` — after the loop the
block-local `y` is read. -/
def c2Prog : List Stmt :=
  [ .While (.Literal .True) (.Block c2Block),
    .Print (.Variable yTok) ]

/-- Identifier token `x` on line 1 (outer declaration). -/
def x1Tok : Token := ⟨TokenType.Identifier, "x", 1⟩

/-- Identifier token `x` on line 2 (inner, shadowing declaration). -/
def x2Tok : Token := ⟨TokenType.Identifier, "x", 2⟩

/-- Identifier token `x` on line 3 (the use). -/
def x3Tok : Token := ⟨TokenType.Identifier, "x", 3⟩

/-- `{ var x = 1; { var x = 2; print x; } }` — a use of `x` with both
enclosing scopes declaring `x`. -/
def c3Prog : List Stmt :=
  [ .Block [ .Var x1Tok (some (.Literal (.Number 1))),
             .Block [ .Var x2Tok (some (.Literal (.Number 2))),
                      .Print (.Variable x3Tok) ] ] ]

/-- A resolver state whose scope stack holds two scopes, innermost
first, both containing `x` (both defined). -/
def twoScopeState : ResolverState :=
  { ResolverState.new with scopes := [[("x", Bool.true)], [("x", Bool.true)]] }

/-- A `/` operator token. -/
def slashTok : Token := ⟨TokenType.Slash, "/", 1⟩

/-- Claim C1 — refuted by the code, which the claim's spec itself flags
as wrong (closures are meant to share one mutable environment): in
`c1Prog` (`var x = 1; fun f() { return x; } x = 2; print f();`) the
call `f()` prints `1`, the value `x` had when `f` was declared, even
though `x` holds `2` in the interpreter's environment at call time
(second component). `Stmt::Function` stores `self.environment.clone()`
as the closure, a by-value snapshot, so a later assignment to `x` in
the enclosing scope is invisible to the call. -/
theorem closure_call_reads_snapshot_not_current :
    (runProgram 50 c1Prog).map
      (fun p => (p.1.output, valsGet "x" p.1.environment.values)) =
    some ([Literal.Number 1], some (Literal.Number 2)) := rfl

/-- Claim C2 — refuted by the code: `evaluate_block` pops the pushed
frame only on normal completion. Exiting `{ var y = 10; break; }` via
the `Break` signal leaves the pushed frame — still holding `y` and
strictly enclosing the pre-entry environment — as the current
environment instead of restoring the pre-entry environment
(first conjunct), and consequently in
`while (true) { var y = 10; break; } print y;` the block-local `y` is
still visible after the loop and `10` is printed instead of raising an
undefined-variable error (second conjunct). -/
theorem evaluate_block_keeps_frame_on_break :
    evaluateBlock 10 c2State c2Block =
      some ({ c2State with
                environment := Env.mk [("y", Literal.Number 10)]
                  (some c2State.environment) },
            .error RuntimeException.Break) ∧
    runObs 50 c2Prog = some ([Literal.Number 10], Bool.true) :=
  ⟨rfl, rfl⟩

/-- Claim C3 — refuted by the code: `resolve_local` walks the whole
scope stack without breaking, so a scope containing the name that is
further out overwrites the entry recorded for the innermost one. With
two scopes both containing `x` the side table records distance `1`
(the outermost match), not `0` (the innermost scope, as the claim
states); resolving `{ var x = 1; { var x = 2; print x; } }` therefore
maps the inner `print x` use to its grandparent scope. -/
theorem resolve_local_records_outermost_distance :
    (twoScopeState.resolve_local (Expr.Variable x3Tok) x3Tok).locals =
      [(Expr.Variable x3Tok, 1)] ∧
    (resolveStmts ResolverState.new c3Prog).locals =
      [(Expr.Variable x3Tok, 1)] :=
  ⟨rfl, rfl⟩

/-- Claim C4 — confirmed: for a Binary `/` whose operands evaluate to
Numbers `a` and `b`, evaluation yields the divide-by-zero runtime error
exactly when `b = 0` and the quotient `a / b` otherwise (the zero test
precedes the division, so no division by zero is ever performed — in
the source's `f64` terms, no `inf`/`nan` arises from a zero divisor);
when either operand evaluates to a non-Number value, it yields the
operands-must-be-numbers type error. -/
theorem slash_division_semantics (op : Token)
    (hop : op.token_type = TokenType.Slash) :
    (∀ (fuel : Nat) (s s1 s2 : InterpState) (l r : Expr) (a b : ℚ),
      evaluate fuel s l = some (s1, Except.ok (Literal.Number a)) →
      evaluate fuel s1 r = some (s2, Except.ok (Literal.Number b)) →
      evaluate (fuel + 1) s (Expr.Binary l op r) =
        some (s2,
          if b = 0 then
            Except.error (RuntimeException.base op "Cannot divide by zero")
          else Except.ok (Literal.Number (a / b)))) ∧
    (∀ (fuel : Nat) (s s1 s2 : InterpState) (l r : Expr) (v w : Literal),
      evaluate fuel s l = some (s1, Except.ok v) →
      evaluate fuel s1 r = some (s2, Except.ok w) →
      (v.isNumber = Bool.false ∨ w.isNumber = Bool.false) →
      evaluate (fuel + 1) s (Expr.Binary l op r) =
        some (s2,
          Except.error (RuntimeException.base op "Operands must be numbers."))) := by
  constructor
  · intro fuel s s1 s2 l r a b h1 h2
    simp only [evaluate, h1, h2, binaryOp, hop]
    by_cases hb : b = 0 <;> simp [hb]
  · intro fuel s s1 s2 l r v w h1 h2 hvw
    simp only [evaluate, h1, h2, binaryOp, hop]
    cases v <;> cases w <;> simp_all [Literal.isNumber]

/-- Witness for `slash_division_semantics` at concrete inputs: `6 / 3`
evaluates to the quotient, `6 / 0` to the divide-by-zero error, and
`"a" / 3` to the type error. -/
theorem slash_division_semantics_witness :
    evaluate 2 InterpState.default
        (Expr.Binary (.Literal (.Number 6)) slashTok (.Literal (.Number 3))) =
      some (InterpState.default, Except.ok (Literal.Number 2)) ∧
    evaluate 2 InterpState.default
        (Expr.Binary (.Literal (.Number 6)) slashTok (.Literal (.Number 0))) =
      some (InterpState.default,
        Except.error (RuntimeException.base slashTok "Cannot divide by zero")) ∧
    evaluate 2 InterpState.default
        (Expr.Binary (.Literal (.Str "a")) slashTok (.Literal (.Number 3))) =
      some (InterpState.default,
        Except.error (RuntimeException.base slashTok "Operands must be numbers.")) := by
  refine ⟨?_, ?_, ?_⟩
  · have h := (slash_division_semantics slashTok rfl).1 1
      InterpState.default InterpState.default InterpState.default
      (Expr.Literal (PrimLiteral.Number 6)) (Expr.Literal (PrimLiteral.Number 3))
      6 3 rfl rfl
    rw [h]
    norm_num
  · have h := (slash_division_semantics slashTok rfl).1 1
      InterpState.default InterpState.default InterpState.default
      (Expr.Literal (PrimLiteral.Number 6)) (Expr.Literal (PrimLiteral.Number 0))
      6 0 rfl rfl
    rw [h]
    norm_num
  · exact (slash_division_semantics slashTok rfl).2 1
      InterpState.default InterpState.default InterpState.default
      (Expr.Literal (PrimLiteral.Str "a")) (Expr.Literal (PrimLiteral.Number 3))
      (Literal.Str "a") (Literal.Number 3) rfl rfl (Or.inl rfl)
